import Mathlib

/-
Verification of the note-graph engine of `notedown.py` (Sublime Text
Notedown plugin).

The Python source is shallowly embedded below.  Conventions of the
embedding:

* Python strings are Lean `String`s, and all character-level operations
  work on `String.data : List Char` with structural recursion, so every
  definition evaluates by `decide` / `rfl`.  Case folding uses
  `Char.toLower` (an ASCII model of `str.lower()`); whitespace uses
  `Char.isWhitespace` (an ASCII model of the default `str.strip()`).
* The filesystem is passed explicitly: directory modification times and
  `os.walk` results as a `DirFs` record, file contents as a
  `read : String -> Except PyExc String` function (reading a file can
  raise `UnicodeDecodeError`), and file writes are collected in an
  association list (most recent write first).
* Python dicts are association lists preserving key insertion order;
  Python sets are lists where only membership matters (Python's set
  iteration order is unspecified; the model fixes first-occurrence
  order, which is noted wherever it could matter).
-/

set_option autoImplicit false

namespace Notedown

/-! ## Character and string helpers (models of Python builtins) -/

/-- Model of Python `str.strip()` on a character list: drop whitespace from
the front, then from the back (implemented by reversing). -/
def stripChars (cs : List Char) : List Char :=
  ((cs.dropWhile Char.isWhitespace).reverse.dropWhile Char.isWhitespace).reverse

/-- Model of Python `str.strip()`. -/
def pyStrip (s : String) : String :=
  String.mk (stripChars s.data)

/-- Model of Python `str.split(sep)` for a one-character separator:
splits on every occurrence, keeping empty segments, and always returns at
least one segment. -/
def splitChar (sep : Char) : List Char → List (List Char)
  | [] => [[]]
  | c :: cs =>
    if c = sep then [] :: splitChar sep cs
    else
      match splitChar sep cs with
      | [] => [[c]]
      | h :: t => (c :: h) :: t

/-- Model of Python `str.lower()` (ASCII). -/
def pyLower (s : String) : String :=
  String.mk (s.data.map Char.toLower)

/-- Model of `os.path.join(dir_, base)` for POSIX paths: an absolute
second argument wins, otherwise the parts are glued with `/`. -/
def pyJoin (dir_ base : String) : String :=
  if base.data.head? = some '/' then base
  else if dir_ = "" then base
  else if dir_.data.getLast? = some '/' then dir_ ++ base
  else dir_ ++ "/" ++ base

/-- Model of `os.path.basename`: everything after the last `/`. -/
def pyBasename (s : String) : String :=
  String.mk (s.data.reverse.takeWhile (fun c => c ≠ '/')).reverse

/-- Model of `os.path.splitext(base)`: split at the last dot, except that
leading dots of the basename never start an extension. -/
def splitext (base : String) : String × String :=
  let cs := base.data
  let lead := cs.takeWhile (fun c => c = '.')
  let rest := cs.dropWhile (fun c => c = '.')
  let rsuf := rest.reverse.takeWhile (fun c => c ≠ '.')
  if rsuf.length = rest.length then (base, "")
  else (String.mk (lead ++ rest.take (rest.length - rsuf.length - 1)),
        String.mk (rest.drop (rest.length - rsuf.length - 1)))

/-! ## NameCodec: `_TITLE_SEP`, `_titles` (notedown.py lines 31, 602-603) -/

/-- Source: `_TITLE_SEP = '~'` (a one-character separator string, embedded
as a `Char`). -/
def _TITLE_SEP : Char := '~'

/-- Source: `def _titles(name): return (x.strip() for x in
name.split(_TITLE_SEP))`.  The Python generator is embedded as the list
of its elements.  Note the source does NOT drop empty segments. -/
def _titles (name : String) : List String :=
  (splitChar _TITLE_SEP name.data).map (fun cs => pyStrip (String.mk cs))

/-- Model of `next(_titles(name))` as used at lines 456 and 562-563:
`str.split` always yields at least one segment, so the default is never
used. -/
def firstTitle (name : String) : String :=
  (_titles name).headD ""

/-! ## NoteIndex: `_MARKDOWN_EXTENSIONS`, `_find_notes` (lines 25, 519-545) -/

/-- Source: `_MARKDOWN_EXTENSIONS = {'.md', '.mdown', '.markdown',
'.markdn'}` (a set used only for membership tests). -/
def _MARKDOWN_EXTENSIONS : List String :=
  [".md", ".mdown", ".markdown", ".markdn"]

/-- The notes dict built by `_find_notes`:
`{<lowercase title>: [(<title>, <filename>)]}`, embedded as an
association list preserving Python's dict insertion order. -/
abbrev Notes := List (String × List (String × String))

/-- Lookup in the notes dict (`notes[key]`, `key in notes`). -/
def notesLookup : Notes → String → Option (List (String × String))
  | [], _ => none
  | (k, v) :: rest, key => if k = key then some v else notesLookup rest key

/-- Lines 538-542: append `(title, file_)` to the bucket of `key`,
creating the bucket at the end of the dict on first insertion (Python
dicts keep key insertion order, and `list.append` keeps bucket order). -/
def addNote : Notes → String → String → String → Notes
  | [], key, title, file => [(key, [(title, file)])]
  | (k, v) :: rest, key, title, file =>
    if k = key then (k, v ++ [(title, file)]) :: rest
    else (k, v) :: addNote rest key title file

/-- Lines 532-542: process one directory entry `base` found in `dir_`:
skip non-Markdown extensions, otherwise insert every alias of the
basename. -/
def addFile (notes : Notes) (dir_ base : String) : Notes :=
  let ne := splitext base
  if _MARKDOWN_EXTENSIONS.contains ne.2 then
    (_titles ne.1).foldl
      (fun ns title => addNote ns (pyLower title) title (pyJoin dir_ base))
      notes
  else notes

/-- Lines 530-542: the full `os.walk` loop of `_find_notes`, starting
from the empty dict.  The walk result is supplied as a list of
`(directory, files in that directory)` pairs in walk order. -/
def buildNotes (walkList : List (String × List String)) : Notes :=
  walkList.foldl
    (fun ns entry => entry.2.foldl (fun ns2 base => addFile ns2 entry.1 base) ns)
    []

/-- The process-wide `_notes_cache = {}  # {path: (mtime, notes dict)}`
(line 648), embedded as an association list in dict insertion order. -/
abbrev Cache := List (String × (Nat × Notes))

/-- Model of `_notes_cache.get(directory, (None, None))` (line 526): a
miss is `none`. -/
def cacheLookup : Cache → String → Option (Nat × Notes)
  | [], _ => none
  | (d, e) :: rest, dir_ => if d = dir_ then some e else cacheLookup rest dir_

/-- Model of `_notes_cache[directory] = mtime, notes` (line 544):
replace the existing entry in place or append a new one. -/
def cacheInsert : Cache → String → Nat → Notes → Cache
  | [], dir_, mtime, notes => [(dir_, (mtime, notes))]
  | (d, e) :: rest, dir_, mtime, notes =>
    if d = dir_ then (d, (mtime, notes)) :: rest
    else (d, e) :: cacheInsert rest dir_ mtime notes

/-- The filesystem as seen by `_find_notes`: directory modification
times (`os.stat(directory).st_mtime`) and walk results (`os.walk`).  A
`DirFs` value is immutable, matching the fact that lines 527 and 544
stat the same unchanged directory. -/
structure DirFs where
  mtime : String → Nat
  walk : String → List (String × List String)

/-- Lines 519-545, `_find_notes(directory)`.  The third component counts
how many directory walks were performed (0 on a cache hit, 1 on a
rebuild), instrumenting the claim "without re-walking".  The second
component is the cache after the call. -/
def _find_notes (fs : DirFs) (cache : Cache) (directory : String) :
    Notes × Cache × Nat :=
  match cacheLookup cache directory with
  | some e =>
    if e.1 = fs.mtime directory then (e.2, cache, 0)
    else
      let notes := buildNotes (fs.walk directory)
      (notes, cacheInsert cache directory (fs.mtime directory) notes, 1)
  | none =>
    let notes := buildNotes (fs.walk directory)
    (notes, cacheInsert cache directory (fs.mtime directory) notes, 1)

/-! ## Home directory: `_find_home_dir`, `_find_notes_for_view` (lines 501-516)

Directories are embedded as component lists under the filesystem root
(`[]` is `/`, `["a", "b"]` is `/a/b`); `os.path.dirname` is dropping the
last component, and `dirname(curr) == curr` exactly at the root.
`isFile` models `os.path.isfile`. -/

/-- Core of the upward walk, structurally recursing on the REVERSED
component list (deepest component first), so that moving to the parent
directory is taking the tail. -/
def findHomeDirRev (isFile : List String → Bool) (home_base : String) :
    List String → Option (List String)
  | [] => if isFile [home_base] then some [] else none
  | c :: parent =>
    if isFile ((c :: parent).reverse ++ [home_base]) then
      some (c :: parent).reverse
    else findHomeDirRev isFile home_base parent

/-- Lines 501-507, `_find_home_dir(curr_dir)`.  Modelled from the spec:
the sentinel basename is a parameter `home_base`, because the source
line 502 references `_HOME_FILE_BASE`, a name that is DEFINED NOWHERE in
`notedown.py` (line 39 defines `_HOME_NAME = 'README'` instead), so the
real function raises `NameError` on every call; the spec describes the
sentinel as "a fixed well-known basename".  Everything else (check the
current directory, recurse into the parent, return `None` once the root
has been checked) is translated from the source. -/
def _find_home_dir (isFile : List String → Bool) (home_base : String)
    (curr_dir : List String) : Option (List String) :=
  findHomeDirRev isFile home_base curr_dir.reverse

/-- Lines 510-516, the directory-scope choice of `_find_notes_for_view`:
index the home directory when one was found, otherwise the note's own
directory. -/
def _find_notes_for_view_dir (isFile : List String → Bool)
    (home_base : String) (curr_dir : List String) : List String :=
  match _find_home_dir isFile home_base curr_dir with
  | some home => home
  | none => curr_dir

/-! ## LinkResolver: `NotedownOpenLinkCommand._open_note` (lines 118-140) -/

/-- The observable outcome of `_open_note`:
`createOffer` is the `KeyError` branch (line 122-126: zero matches, the
user is offered `_create_note(title, view)`); `openFile` is the
single-candidate branch (line 134); `quickPanel` is the multi-candidate
branch (lines 128-132, candidates in index order); `popError` is the
`IndexError` that `filenames.pop()` would raise on an empty bucket
(never produced by `_find_notes`, see `C5`'s last conjunct). -/
inductive OpenAction where
  | createOffer (title : String)
  | openFile (filename : String)
  | quickPanel (filenames : List String)
  | popError
deriving DecidableEq

/-- Source: `_full_path(view, filename) = os.path.join(_notes_dir(view),
filename)` (lines 594-599), with the view's directory passed
explicitly. -/
def _full_path (notes_dir filename : String) : String :=
  pyJoin notes_dir filename

/-- Lines 118-134, `_open_note(self, title)`: look up
`title.lower()` in the notes dict; `KeyError` offers creation; more than
one `(title, file)` pair shows the quick panel in bucket order;
otherwise `filenames.pop()` opens the last (= only) element. -/
def _open_note (notes : Notes) (notes_dir : String) (title : String) :
    OpenAction :=
  match notesLookup notes (pyLower title) with
  | none => OpenAction.createOffer title
  | some pairs =>
    let filenames := pairs.map (fun p => _full_path notes_dir p.2)
    if filenames.length > 1 then OpenAction.quickPanel filenames
    else
      match filenames.getLast? with
      | some f => OpenAction.openFile f
      | none => OpenAction.popError

/-! ## NoteCreator: `_NOTE_TEMPLATE`, `_create_note` (lines 33-37, 548-573) -/

/-- Source lines 33-37: `_NOTE_TEMPLATE.format(title, back_title)` is a
first-level heading, the backlink, and a trailing blank line. -/
def _NOTE_TEMPLATE (title back_title : String) : String :=
  "# " ++ title ++ "\n[[" ++ back_title ++ "]]\n\n"

/-- Contents of the written files, most recent write first (a later
write to the same path shadows an earlier one). -/
def fsLookup (fs : List (String × String)) (f : String) : Option String :=
  (fs.find? (fun p => p.1 == f)).map (fun p => p.2)

/-- Lines 548-573, `_create_note(title, view)`.  Parameters embed the
collaborators: `view_file_name` is `view.file_name()`; `dialog_ok` the
`sublime.ok_cancel_dialog` answer; `open_error` tells which paths make
`open(filename, 'w')` raise `IOError` and `write_error` which paths
make the subsequent `fileobj.write` raise; `fs` the files on disk;
`notes_dir` the view's directory; `ext` the `markdown_extension`
setting.  Returns the filename (or `none` on cancel/`IOError`) and the
resulting filesystem.  Note the source opens with mode `'w'`, which
truncates without any existence check, and it truncates BEFORE the
write: an `IOError` raised by `open` leaves the disk untouched, but one
raised by the write leaves the file already truncated (embedded as
empty content; CPython may leave a prefix of the text for very large
buffered writes, which no claim depends on).  Both raises are caught at
lines 568-571 and yield `None`. -/
def _create_note (title view_file_name : String) (dialog_ok : Bool)
    (open_error write_error : String → Bool) (fs : List (String × String))
    (notes_dir ext : String) : Option String × List (String × String) :=
  let filename := title ++ "." ++ ext
  if !dialog_ok then (none, fs)
  else
    let filename := _full_path notes_dir filename
    let back_title := firstTitle (splitext (pyBasename view_file_name)).1
    if open_error filename then (none, fs)
    else if write_error filename then (none, (filename, "") :: fs)
    else (some filename, (filename, _NOTE_TEMPLATE title back_title) :: fs)

/-! ## RenameReconciler: `_update_backlinks` (lines 437-481) -/

/-- The unicode errors relevant to the reconciliation loop.
`fileobj.read()` raises `UnicodeDecodeError` when the file content is
not valid in the declared encoding; the source's `except` clause at line
469 names `UnicodeEncodeError`, a DIFFERENT class (neither is a subclass
of the other). -/
inductive PyExc where
  | unicodeDecodeError
  | unicodeEncodeError
deriving DecidableEq

/-- Try to consume `alias_cs` (case-insensitively, modelling
`re.IGNORECASE`) from the front of `cs`. -/
def stripPrefixCI : List Char → List Char → Option (List Char)
  | [], cs => some cs
  | _ :: _, [] => none
  | a :: ps, c :: cs =>
    if a.toLower = c.toLower then stripPrefixCI ps cs else none

/-- Try to match one alternative of the alias group followed by the
closing `]]`. -/
def matchAliasAt (alias_cs cs : List Char) : Option (List Char) :=
  match stripPrefixCI alias_cs cs with
  | some (']' :: ']' :: rest) => some rest
  | _ => none

/-- Try the alternatives of the group `({alias1}|{alias2}|...)` in
order, as the regex engine does (the alternation order comes from an
unordered Python set; it is observationally irrelevant because the
alternatives are complete aliases followed by `]]`). -/
def matchAnyAlias : List (List Char) → List Char → Option (List Char)
  | [], _ => none
  | a :: rest_aliases, cs =>
    match matchAliasAt a cs with
    | some r => some r
    | none => matchAnyAlias rest_aliases cs

/-- Match the compiled pattern `\[\[({aliases})\]\]` at the head of
`cs`, returning the remaining characters. -/
def matchLink (removed : List (List Char)) : List Char → Option (List Char)
  | '[' :: '[' :: rest => matchAnyAlias removed rest
  | _ => none

/-- Leftmost, non-overlapping global replacement, the semantics of
`pattern.subn(repl, text)`.  `fuel` only bounds the recursion; every
step consumes at least one character, so `fuel = length of the text`
never runs out (the `0` case with a nonempty list is unreachable). -/
def subnAux (removed : List (List Char)) (repl : List Char) :
    Nat → List Char → List Char × Nat
  | _, [] => ([], 0)
  | 0, cs => (cs, 0)
  | fuel + 1, c :: cs =>
    match matchLink removed (c :: cs) with
    | some rest =>
      let tn := subnAux removed repl fuel rest
      (repl ++ tn.1, tn.2 + 1)
    | none =>
      let tn := subnAux removed repl fuel cs
      (c :: tn.1, tn.2)

/-- Line 454: `pattern = re.compile(r'\[\[({})\]\]'.format('|'.join(removed)),
re.IGNORECASE)`, line 468: `text, count = pattern.subn(repl, ...)`.
Aliases are matched literally (none of the witnesses below contain regex
metacharacters, which the source does not escape either). -/
def pySubn (removed : List String) (repl : String) (text : String) :
    String × Nat :=
  let tn := subnAux (removed.map String.data) repl.data text.data.length text.data
  (String.mk tn.1, tn.2)

/-- Line 448: `removed = set(_titles(old_name)) - set(_titles(new_name))`.
Membership-faithful embedding of the set difference; note it compares
the DISPLAY aliases as produced by `_titles`, without lowercasing. -/
def removedTitles (old_name new_name : String) : List String :=
  ((_titles old_name).filter (fun t => decide (t ∉ _titles new_name))).dedup

/-- Line 456: `repl = '[[{}]]'.format(next(_titles(new_name)))`. -/
def replToken (new_name : String) : String :=
  "[[" ++ firstTitle new_name ++ "]]"

/-- The content a file currently has: the most recent write if any,
otherwise what `read` (the disk before the reconciliation) returns. -/
def readW (writes : List (String × String))
    (read : String → Except PyExc String) (f : String) :
    Except PyExc String :=
  match writes.find? (fun p => p.1 == f) with
  | some p => Except.ok p.2
  | none => read f

/-- Lines 460-481: the per-file loop of `_update_backlinks`.  `writes`
accumulates the performed file writes (most recent first), `updated` is
the running counter.  The `try`/`except UnicodeEncodeError` of lines
467-471 catches ONLY `unicodeEncodeError` (log and `continue`); a
`unicodeDecodeError` raised by `fileobj.read()` propagates and aborts
the whole loop, which the embedding returns as `Except.error`. -/
def updateLoop (removed : List String) (repl : String) :
    List String → (String → Except PyExc String) →
    List (String × String) → Nat →
    Except PyExc (Nat × List (String × String))
  | [], _, writes, updated => Except.ok (updated, writes)
  | f :: rest, read, writes, updated =>
    match readW writes read f with
    | Except.error PyExc.unicodeEncodeError =>
      updateLoop removed repl rest read writes updated
    | Except.error PyExc.unicodeDecodeError =>
      Except.error PyExc.unicodeDecodeError
    | Except.ok text =>
      if (pySubn removed repl text).2 = 0 then
        updateLoop removed repl rest read writes updated
      else
        updateLoop removed repl rest read
          ((f, (pySubn removed repl text).1) :: writes) (updated + 1)

/-- Lines 437-481, `_update_backlinks(old_name, new_name, encoding,
notes_dir)`.  `read` embeds reading a file with the given encoding;
`filenames` is the set comprehension of lines 461-463 (the unique file
paths of the current index — Python set order is unspecified, the model
takes it as a parameter).  The early `return` at line 451 yields Python
`None` (embedded as `(none, [])`: no count, no writes); otherwise the
result carries `some` of the updated-files count and the performed
writes. -/
def _update_backlinks (old_name new_name : String)
    (read : String → Except PyExc String) (filenames : List String) :
    Except PyExc (Option Nat × List (String × String)) :=
  if removedTitles old_name new_name = [] then Except.ok (none, [])
  else
    match updateLoop (removedTitles old_name new_name) (replToken new_name)
        filenames read [] 0 with
    | Except.ok r => Except.ok (some r.1, r.2)
    | Except.error e => Except.error e

/-! ## Concrete fixtures used by the witnesses and counterexamples -/

/-- A filesystem whose every directory has modification time 5 and
contains a single note `A.md`. -/
def fsA : DirFs := ⟨fun _ => 5, fun _ => [("r", ["A.md"])]⟩

/-- The index of a corpus with two files `X~Y.md` and `Y.md` under `/n`,
both exposing the alias `Y` (the spec's ambiguity scenario), as built by
`buildNotes [("/n", ["X~Y.md", "Y.md"])]`. -/
def notesW5 : Notes :=
  [("x", [("X", "/n/X~Y.md")]), ("y", [("Y", "/n/X~Y.md"), ("Y", "/n/Y.md")])]

/-- One existing note file for the `_create_note` overwrite counterexample. -/
def fsC6 : List (String × String) := [("dir/Foo.md", "old content")]

/-- Disk contents for the `C3` counterexample: one note whose text links
to the old name with its original capitalization. -/
def readC3 : String → Except PyExc String := fun f =>
  if f = "n.md" then Except.ok "see [[A]]" else Except.error PyExc.unicodeDecodeError

/-- Disk contents for the `C4` code-bug theorem: `a.md` decodes fine and
references the old name, `b.md` is not decodable in the declared
encoding. -/
def readC4 : String → Except PyExc String := fun f =>
  if f = "a.md" then Except.ok "see [[Old]]" else Except.error PyExc.unicodeDecodeError

/-- Disk contents for the `C9` witness: `a.md` references the old name,
`b.md` does not. -/
def readC9 : String → Except PyExc String := fun f =>
  if f = "a.md" then Except.ok "see [[Old]]"
  else if f = "b.md" then Except.ok "nothing"
  else Except.error PyExc.unicodeDecodeError

/-- A filesystem predicate for the `C2` witness: exactly `/a/README.md`
exists. -/
def isFileC2 : List String → Bool := fun q => q == ["a", "README.md"]

/-! ## Helper lemmas -/

theorem dropWhile_dropWhile {α : Type} (p : α → Bool) (l : List α) :
    (l.dropWhile p).dropWhile p = l.dropWhile p := by
  induction l with
  | nil => rfl
  | cons a l ih =>
    by_cases h : p a
    · simp [List.dropWhile_cons, h, ih]
    · simp [List.dropWhile_cons, h]

theorem dropWhile_head?_not {α : Type} (p : α → Bool) (l : List α) (c : α)
    (h : (l.dropWhile p).head? = some c) : p c = false := by
  induction l with
  | nil => simp [List.dropWhile] at h
  | cons a l ih =>
    by_cases ha : p a
    · rw [List.dropWhile_cons, if_pos ha] at h
      exact ih h
    · rw [List.dropWhile_cons, if_neg ha] at h
      simp only [List.head?_cons, Option.some.injEq] at h
      subst h
      simpa using ha

theorem head?_of_isPrefix {α : Type} {z y : List α} (h : z <+: y) (c : α)
    (hz : z.head? = some c) : y.head? = some c := by
  obtain ⟨t, rfl⟩ := h
  cases z with
  | nil => simp at hz
  | cons a z => simpa using hz

theorem dropWhile_eq_self_of_head? {α : Type} (p : α → Bool) (l : List α)
    (h : ∀ c, l.head? = some c → p c = false) : l.dropWhile p = l := by
  cases l with
  | nil => rfl
  | cons a l => simp [List.dropWhile_cons, h a rfl]

/-- `str.strip()` is idempotent. -/
theorem stripChars_idem (cs : List Char) :
    stripChars (stripChars cs) = stripChars cs := by
  unfold stripChars
  have hrev : ∀ y : List Char,
      ((((y.dropWhile Char.isWhitespace).reverse.dropWhile
        Char.isWhitespace).reverse).reverse.dropWhile Char.isWhitespace).reverse =
      ((y.dropWhile Char.isWhitespace).reverse.dropWhile Char.isWhitespace).reverse := by
    intro y
    rw [List.reverse_reverse, dropWhile_dropWhile]
  have hleft :
      (((cs.dropWhile Char.isWhitespace).reverse.dropWhile
        Char.isWhitespace).reverse).dropWhile Char.isWhitespace =
      ((cs.dropWhile Char.isWhitespace).reverse.dropWhile
        Char.isWhitespace).reverse := by
    apply dropWhile_eq_self_of_head?
    intro c hc
    have hpre : (((cs.dropWhile Char.isWhitespace).reverse.dropWhile
        Char.isWhitespace).reverse) <+: cs.dropWhile Char.isWhitespace := by
      have hsuf : ((cs.dropWhile Char.isWhitespace).reverse.dropWhile
          Char.isWhitespace) <:+ (cs.dropWhile Char.isWhitespace).reverse :=
        List.dropWhile_suffix _
      have := List.reverse_prefix.mpr hsuf
      rwa [List.reverse_reverse] at this
    have hhead := head?_of_isPrefix hpre c hc
    exact dropWhile_head?_not Char.isWhitespace cs c hhead
  rw [hleft, hrev cs]

theorem cacheLookup_cacheInsert_self (cache : Cache) (d : String) (m : Nat)
    (ns : Notes) : cacheLookup (cacheInsert cache d m ns) d = some (m, ns) := by
  induction cache with
  | nil => simp [cacheInsert, cacheLookup]
  | cons e rest ih =>
    obtain ⟨d', e'⟩ := e
    by_cases h : d' = d <;> simp [cacheInsert, cacheLookup, h, ih]

/-- What `addNote` does to every lookup: the bucket of `key` grows by one
pair at the end, every other bucket is untouched. -/
theorem notesLookup_addNote (notes : Notes) (key title file k : String) :
    notesLookup (addNote notes key title file) k =
      if k = key then some (((notesLookup notes key).getD []) ++ [(title, file)])
      else notesLookup notes k := by
  induction notes with
  | nil =>
    by_cases h : k = key
    · subst h; simp [addNote, notesLookup]
    · simp [addNote, notesLookup, h, Ne.symm h]
  | cons e rest ih =>
    obtain ⟨k0, v0⟩ := e
    by_cases h0 : k0 = key
    · subst h0
      by_cases hk : k0 = k
      · subst hk; simp [addNote, notesLookup]
      · simp [addNote, notesLookup, hk, Ne.symm hk]
    · by_cases hk : k0 = k
      · subst hk
        simp [addNote, notesLookup, h0, Ne.symm h0]
      · simp [addNote, notesLookup, h0, hk, ih]

/-- Buckets of the notes dict are never empty. -/
def NotesWF (notes : Notes) : Prop :=
  ∀ k ps, notesLookup notes k = some ps → ps ≠ []

theorem notesWF_addNote {notes : Notes} (hwf : NotesWF notes)
    (key title file : String) : NotesWF (addNote notes key title file) := by
  intro k ps hk
  rw [notesLookup_addNote] at hk
  split at hk
  · cases hk; simp
  · exact hwf k ps hk

theorem foldl_preserve {α β : Type} (P : α → Prop) (f : α → β → α)
    (hf : ∀ a b, P a → P (f a b)) : ∀ (l : List β) (a : α), P a → P (l.foldl f a)
  | [], _, ha => ha
  | b :: l, a, ha => foldl_preserve P f hf l (f a b) (hf a b ha)

theorem notesWF_addFile {notes : Notes} (hwf : NotesWF notes)
    (dir_ base : String) : NotesWF (addFile notes dir_ base) := by
  by_cases hext : (splitext base).2 ∈ _MARKDOWN_EXTENSIONS
  · rw [show addFile notes dir_ base = (_titles (splitext base).1).foldl
        (fun ns title => addNote ns (pyLower title) title (pyJoin dir_ base))
        notes from by simp [addFile, hext]]
    exact foldl_preserve NotesWF _
      (fun ns title h => notesWF_addNote h (pyLower title) title (pyJoin dir_ base))
      _ notes hwf
  · rw [show addFile notes dir_ base = notes from by simp [addFile, hext]]
    exact hwf

theorem notesWF_buildNotes (walkList : List (String × List String)) :
    NotesWF (buildNotes walkList) := by
  unfold buildNotes
  refine foldl_preserve NotesWF
    (fun ns entry => entry.2.foldl (fun ns2 base => addFile ns2 entry.1 base) ns)
    ?_ walkList [] ?_
  · intro ns entry h
    exact foldl_preserve NotesWF (fun ns2 base => addFile ns2 entry.1 base)
      (fun ns2 base h2 => notesWF_addFile h2 entry.1 base) entry.2 ns h
  · intro k ps hk
    simp [notesLookup] at hk

/-- Behaviour of the reversed-path walk: a `some` result is the deepest
suffix (= ancestor) carrying the sentinel, and when no ancestor carries
it the result is `none`. -/
theorem findHomeDirRev_spec (isFile : List String → Bool) (hb : String)
    (r : List String) :
    (∀ h, findHomeDirRev isFile hb r = some h →
      ∃ rh, rh <:+ r ∧ h = rh.reverse ∧ isFile (h ++ [hb]) = true ∧
        (∀ rp, rp <:+ r → rh.length < rp.length →
          isFile (rp.reverse ++ [hb]) = false)) ∧
    ((∀ rp, rp <:+ r → isFile (rp.reverse ++ [hb]) = false) →
      findHomeDirRev isFile hb r = none) := by
  induction r with
  | nil =>
    constructor
    · intro h hsome
      by_cases hif : isFile [hb] = true
      · rw [findHomeDirRev, if_pos hif] at hsome
        cases hsome
        refine ⟨[], List.suffix_rfl, rfl, hif, ?_⟩
        intro rp hrp hlen
        have : rp = [] := List.eq_nil_of_suffix_nil hrp
        subst this
        simp at hlen
      · rw [findHomeDirRev, if_neg hif] at hsome
        cases hsome
    · intro hyp
      have hif : isFile [hb] = false := hyp [] List.suffix_rfl
      rw [findHomeDirRev, if_neg (show ¬isFile [hb] = true by simp [hif])]
  | cons c parent ih =>
    constructor
    · intro h hsome
      by_cases hif : isFile ((c :: parent).reverse ++ [hb]) = true
      · rw [findHomeDirRev, if_pos hif] at hsome
        cases hsome
        refine ⟨c :: parent, List.suffix_rfl, rfl, hif, ?_⟩
        intro rp hrp hlen
        have := List.IsSuffix.length_le hrp
        omega
      · rw [findHomeDirRev, if_neg hif] at hsome
        obtain ⟨rh, hsuf, heq, hfile, hmax⟩ := ih.1 h hsome
        refine ⟨rh, hsuf.trans (List.suffix_cons c parent), heq, hfile, ?_⟩
        intro rp hrp hlen
        rcases List.suffix_cons_iff.mp hrp with hcase | hcase
        · subst hcase
          simpa using hif
        · exact hmax rp hcase hlen
    · intro hyp
      have hif : isFile ((c :: parent).reverse ++ [hb]) = false :=
        hyp (c :: parent) List.suffix_rfl
      rw [findHomeDirRev, if_neg (show ¬isFile ((c :: parent).reverse ++ [hb]) = true
        by rw [hif]; simp)]
      exact ih.2 (fun rp hrp => hyp rp (hrp.trans (List.suffix_cons c parent)))

/-- Behaviour of the per-file loop of `_update_backlinks`: every write
it performs is both recorded and justified by a nonzero replace count,
and the counter counts exactly the files with a nonzero count. -/
theorem updateLoop_spec (removed : List String) (repl : String) :
    ∀ (files : List String) (read : String → Except PyExc String)
      (writes0 : List (String × String)) (u0 n : Nat)
      (writes : List (String × String)),
      files.Nodup →
      (∀ f ∈ files, writes0.find? (fun p => p.1 == f) = none) →
      updateLoop removed repl files read writes0 u0 = Except.ok (n, writes) →
      (∀ q ∈ writes0, q ∈ writes) ∧
      (∀ f ∈ files, ∀ text, read f = Except.ok text →
        (pySubn removed repl text).2 ≠ 0 →
        (f, (pySubn removed repl text).1) ∈ writes) ∧
      (∀ q ∈ writes, q ∈ writes0 ∨
        (q.1 ∈ files ∧ ∃ text, read q.1 = Except.ok text ∧
          (pySubn removed repl text).2 ≠ 0 ∧
          q.2 = (pySubn removed repl text).1)) ∧
      n = u0 + (files.filter (fun f =>
        match read f with
        | Except.ok t => (pySubn removed repl t).2 != 0
        | Except.error _ => false)).length := by
  intro files
  induction files with
  | nil =>
    intro read writes0 u0 n writes _ _ hloop
    rw [updateLoop] at hloop
    simp only [Except.ok.injEq, Prod.mk.injEq] at hloop
    obtain ⟨rfl, rfl⟩ := hloop
    exact ⟨fun q hq => hq, by simp, fun q hq => Or.inl hq, by simp⟩
  | cons f rest ih =>
    intro read writes0 u0 n writes hnodup h0 hloop
    have hf0 : writes0.find? (fun p => p.1 == f) = none := h0 f (by simp)
    have hrest0 : ∀ g ∈ rest, writes0.find? (fun p => p.1 == g) = none :=
      fun g hg => h0 g (by simp [hg])
    have hfrest : f ∉ rest := (List.nodup_cons.mp hnodup).1
    have hnodup' : rest.Nodup := (List.nodup_cons.mp hnodup).2
    cases hread : read f with
    | error e =>
      cases e with
      | unicodeEncodeError =>
        simp only [updateLoop, readW, hf0, hread] at hloop
        obtain ⟨hsub, hmem, honly, hcount⟩ :=
          ih read writes0 u0 n writes hnodup' hrest0 hloop
        refine ⟨hsub, ?_, ?_, ?_⟩
        · intro g hg text hgt hcnt
          rcases List.mem_cons.mp hg with rfl | hg'
          · rw [hread] at hgt; cases hgt
          · exact hmem g hg' text hgt hcnt
        · intro q hq
          rcases honly q hq with hc | ⟨hq1, hq2⟩
          · exact Or.inl hc
          · exact Or.inr ⟨List.mem_cons_of_mem _ hq1, hq2⟩
        · rw [hcount, List.filter_cons]
          simp [hread]
      | unicodeDecodeError =>
        simp only [updateLoop, readW, hf0, hread] at hloop
        exact Except.noConfusion hloop
    | ok text =>
      simp only [updateLoop, readW, hf0, hread] at hloop
      by_cases hz : (pySubn removed repl text).2 = 0
      · rw [if_pos hz] at hloop
        obtain ⟨hsub, hmem, honly, hcount⟩ :=
          ih read writes0 u0 n writes hnodup' hrest0 hloop
        refine ⟨hsub, ?_, ?_, ?_⟩
        · intro g hg text' hgt hcnt
          rcases List.mem_cons.mp hg with rfl | hg'
          · rw [hread] at hgt
            cases hgt
            exact absurd hz hcnt
          · exact hmem g hg' text' hgt hcnt
        · intro q hq
          rcases honly q hq with hc | ⟨hq1, hq2⟩
          · exact Or.inl hc
          · exact Or.inr ⟨List.mem_cons_of_mem _ hq1, hq2⟩
        · rw [hcount, List.filter_cons]
          simp [hread, hz]
      · rw [if_neg hz] at hloop
        have h0' : ∀ g ∈ rest,
            (((f, (pySubn removed repl text).1) :: writes0).find?
              (fun p => p.1 == g)) = none := by
          intro g hg
          have hne : f ≠ g := fun hfg => hfrest (hfg ▸ hg)
          rw [List.find?_cons_of_neg, hrest0 g hg]
          simp [hne]
        obtain ⟨hsub, hmem, honly, hcount⟩ :=
          ih read ((f, (pySubn removed repl text).1) :: writes0) (u0 + 1) n
            writes hnodup' h0' hloop
        refine ⟨?_, ?_, ?_, ?_⟩
        · exact fun q hq => hsub q (List.mem_cons_of_mem _ hq)
        · intro g hg text' hgt hcnt
          rcases List.mem_cons.mp hg with rfl | hg'
          · rw [hread] at hgt
            cases hgt
            exact hsub _ (List.mem_cons_self _ _)
          · exact hmem g hg' text' hgt hcnt
        · intro q hq
          rcases honly q hq with hc | ⟨hq1, hq2⟩
          · rcases List.mem_cons.mp hc with rfl | hc'
            · exact Or.inr ⟨List.mem_cons_self _ _, text, hread, hz, rfl⟩
            · exact Or.inl hc'
          · exact Or.inr ⟨List.mem_cons_of_mem _ hq1, hq2⟩
        · rw [hcount, List.filter_cons]
          simp only [hread, hz, bne_iff_ne, ne_eq, not_false_iff, if_true]
          simp [hz]
          omega

/-! ## Claim theorems -/

/-- C1: for every directory whose modification time has not changed
since the index was built, a second call to `_find_notes` returns a
mapping identical to the cached one, leaves the cache unchanged and
performs no directory walk (walk counter 0); on a modification-time
mismatch or cache miss it performs exactly one full walk and replaces
the cache entry wholesale with the freshly built mapping tagged with the
current modification time. -/
theorem C1_find_notes_cache_spec (fs : DirFs) (cache : Cache) (d : String) :
    (_find_notes fs (_find_notes fs cache d).2.1 d =
      ((_find_notes fs cache d).1, (_find_notes fs cache d).2.1, 0)) ∧
    ((∀ e, cacheLookup cache d = some e → e.1 ≠ fs.mtime d) →
      _find_notes fs cache d =
        (buildNotes (fs.walk d),
         cacheInsert cache d (fs.mtime d) (buildNotes (fs.walk d)), 1)) := by
  constructor
  · cases hc : cacheLookup cache d with
    | none =>
      simp [_find_notes, hc, cacheLookup_cacheInsert_self]
    | some e =>
      by_cases hm : e.1 = fs.mtime d
      · simp [_find_notes, hc, hm]
      · simp [_find_notes, hc, hm, cacheLookup_cacheInsert_self]
  · intro hmiss
    cases hc : cacheLookup cache d with
    | none => simp [_find_notes, hc]
    | some e => simp [_find_notes, hc, hmiss e hc]

/-- Witness for C1 at a one-note filesystem, starting from an empty
cache: the first call walks once and fills the cache, the second call
returns the identical mapping with walk counter 0. -/
theorem C1_witness :
    (_find_notes fsA (_find_notes fsA ([] : Cache) "r").2.1 "r" =
      ((_find_notes fsA ([] : Cache) "r").1,
       (_find_notes fsA ([] : Cache) "r").2.1, 0)) ∧
    (_find_notes fsA ([] : Cache) "r" =
      (buildNotes (fsA.walk "r"),
       cacheInsert ([] : Cache) "r" (fsA.mtime "r") (buildNotes (fsA.walk "r")),
       1)) :=
  ⟨(C1_find_notes_cache_spec fsA [] "r").1,
   (C1_find_notes_cache_spec fsA [] "r").2
     (fun e he => by simp [cacheLookup] at he)⟩

/-- C5: resolution of `_open_note` is a trichotomy on the lowercased
comparison key: a key absent from the index offers note creation
(`NotFound` is not an error), a bucket with exactly one `(alias, file)`
pair opens that unique file, and a bucket with more than one pair shows
the quick panel with the candidates in index insertion order (the `map`
preserves the bucket order; no further ranking happens).  The last
conjunct shows that `_find_notes` never builds an empty bucket, so the
trichotomy is exhaustive on real indexes. -/
theorem C5_resolution_trichotomy (notes : Notes) (dir title : String) :
    (notesLookup notes (pyLower title) = none →
      _open_note notes dir title = OpenAction.createOffer title) ∧
    (∀ p, notesLookup notes (pyLower title) = some [p] →
      _open_note notes dir title = OpenAction.openFile (_full_path dir p.2)) ∧
    (∀ ps, notesLookup notes (pyLower title) = some ps → 1 < ps.length →
      _open_note notes dir title =
        OpenAction.quickPanel (ps.map (fun p => _full_path dir p.2))) ∧
    (∀ walkList k ps, notesLookup (buildNotes walkList) k = some ps → ps ≠ []) := by
  refine ⟨?_, ?_, ?_, ?_⟩
  · intro h
    simp [_open_note, h]
  · intro p h
    simp [_open_note, h]
  · intro ps h hlen
    rw [_open_note, h]
    simp only []
    rw [if_pos (by simpa using hlen)]
  · exact fun walkList k ps h => notesWF_buildNotes walkList k ps h

/-- Witness for C5 on the spec's ambiguity corpus (`X~Y.md` and `Y.md`
both expose alias `Y`): an unknown name offers creation, a unique alias
opens its file, a doubled alias shows both candidates with the
first-visited file listed first. -/
theorem C5_witness :
    _open_note notesW5 "/n" "Ghost" = OpenAction.createOffer "Ghost" ∧
    _open_note notesW5 "/n" "X" = OpenAction.openFile "/n/X~Y.md" ∧
    _open_note notesW5 "/n" "Y" =
      OpenAction.quickPanel ["/n/X~Y.md", "/n/Y.md"] := by
  refine ⟨?_, ?_, ?_⟩
  · exact (C5_resolution_trichotomy notesW5 "/n" "Ghost").1 rfl
  · exact (C5_resolution_trichotomy notesW5 "/n" "X").2.1 ("X", "/n/X~Y.md") rfl
  · exact (C5_resolution_trichotomy notesW5 "/n" "Y").2.2.1
      [("Y", "/n/X~Y.md"), ("Y", "/n/Y.md")] rfl (by decide)

/-- C8: resolution is case-insensitive: two queried names with the same
lowercase comparison key produce the same resolution whenever the key is
present in the index (the index is keyed by lowercase keys and
`_open_note` looks up `title.lower()`); when the key is missing, both
reach the `NotFound` branch and each offers creation of the typed
name. -/
theorem C8_case_insensitive_resolution (notes : Notes) (dir a b : String)
    (h : pyLower a = pyLower b) :
    (∀ ps, notesLookup notes (pyLower a) = some ps →
      _open_note notes dir a = _open_note notes dir b) ∧
    (notesLookup notes (pyLower a) = none →
      _open_note notes dir a = OpenAction.createOffer a ∧
      _open_note notes dir b = OpenAction.createOffer b) := by
  constructor
  · intro ps hps
    rw [_open_note, _open_note, ← h, hps]
  · intro hnone
    constructor
    · rw [_open_note, hnone]
    · rw [_open_note, ← h, hnone]

/-- Witness for C8: `y` and `Y` resolve identically on the ambiguity
corpus. -/
theorem C8_witness :
    _open_note notesW5 "/n" "y" = _open_note notesW5 "/n" "Y" :=
  (C8_case_insensitive_resolution notesW5 "/n" "y" "Y" rfl).1
    [("Y", "/n/X~Y.md"), ("Y", "/n/Y.md")] rfl

/-- C6, counterexample: the claim says an existing file at the computed
path makes `_create_note` fail with `IoError` and never silently
overwrite.  But the source opens with mode `'w'` and performs no
existence check: with `dir/Foo.md` already on disk holding
`old content`, creating a note titled `Foo` succeeds, RETURNS the path,
and the file now reads the fresh template (the old content was
overwritten). -/
theorem C6_counterexample :
    fsLookup fsC6 "dir/Foo.md" = some "old content" ∧
    (_create_note "Foo" "dir/Bar.md" true (fun _ => false) (fun _ => false)
      fsC6 "dir" "md").1 = some "dir/Foo.md" ∧
    fsLookup (_create_note "Foo" "dir/Bar.md" true (fun _ => false)
      (fun _ => false) fsC6 "dir" "md").2 "dir/Foo.md" =
      some "# Foo\n[[Bar]]\n\n" :=
  ⟨rfl, rfl, rfl⟩

/-- C6 (amended): `_create_note` performs no existence check — when the
dialog is confirmed and neither `open` nor `write` raises, it writes the
template whole, silently shadowing any file already at the computed
path.  On any I/O failure no file path is returned, so the caller
treats creation as not having happened; an `IOError` raised by `open`
leaves the disk unchanged, while one raised by the write after a
successful open leaves the file truncated (mode `'w'` truncates before
the write). -/
theorem C6_create_note_io (title view_file : String) (dialog : Bool)
    (open_error write_error : String → Bool) (fs : List (String × String))
    (dir ext : String) :
    ((open_error (_full_path dir (title ++ "." ++ ext)) = true ∨
      write_error (_full_path dir (title ++ "." ++ ext)) = true) →
      (_create_note title view_file dialog open_error write_error fs
        dir ext).1 = none) ∧
    (open_error (_full_path dir (title ++ "." ++ ext)) = true →
      _create_note title view_file dialog open_error write_error fs dir ext =
        (none, fs)) ∧
    (open_error (_full_path dir (title ++ "." ++ ext)) = false →
      write_error (_full_path dir (title ++ "." ++ ext)) = true →
      dialog = true →
      _create_note title view_file dialog open_error write_error fs dir ext =
        (none, (_full_path dir (title ++ "." ++ ext), "") :: fs)) ∧
    (open_error (_full_path dir (title ++ "." ++ ext)) = false →
      write_error (_full_path dir (title ++ "." ++ ext)) = false →
      dialog = true →
      _create_note title view_file dialog open_error write_error fs dir ext =
        (some (_full_path dir (title ++ "." ++ ext)),
         (_full_path dir (title ++ "." ++ ext),
          _NOTE_TEMPLATE title (firstTitle (splitext (pyBasename view_file)).1))
         :: fs)) := by
  refine ⟨?_, ?_, ?_, ?_⟩
  · intro hio
    cases dialog
    · simp [_create_note]
    · rcases hio with hio | hio
      · simp [_create_note, hio]
      · by_cases ho : open_error (_full_path dir (title ++ "." ++ ext)) = true
        · simp [_create_note, ho]
        · simp only [Bool.not_eq_true] at ho
          simp [_create_note, ho, hio]
  · intro ho
    cases dialog <;> simp [_create_note, ho]
  · intro ho hw hd
    subst hd
    simp [_create_note, ho, hw]
  · intro ho hw hd
    subst hd
    simp [_create_note, ho, hw]

/-- Witness for C6: with `open` raising, nothing is returned and the
disk is unchanged; with `open` succeeding but the write raising, nothing
is returned and the file is left truncated; with a clean write, the
file appears with the template content. -/
theorem C6_witness :
    _create_note "Foo" "dir/Bar.md" true (fun _ => true) (fun _ => false)
      fsC6 "dir" "md" = (none, fsC6) ∧
    _create_note "Foo" "dir/Bar.md" true (fun _ => false) (fun _ => true)
      fsC6 "dir" "md" = (none, ("dir/Foo.md", "") :: fsC6) ∧
    _create_note "New" "dir/Bar.md" true (fun _ => false) (fun _ => false)
      ([] : List (String × String)) "dir" "md" =
      (some "dir/New.md", [("dir/New.md", "# New\n[[Bar]]\n\n")]) :=
  ⟨(C6_create_note_io "Foo" "dir/Bar.md" true (fun _ => true) (fun _ => false)
      fsC6 "dir" "md").2.1 rfl,
   (C6_create_note_io "Foo" "dir/Bar.md" true (fun _ => false) (fun _ => true)
      fsC6 "dir" "md").2.2.1 rfl rfl rfl,
   (C6_create_note_io "New" "dir/Bar.md" true (fun _ => false) (fun _ => false)
      [] "dir" "md").2.2.2 rfl rfl rfl⟩

/-- C10: the backlink written into a newly created note is the FIRST
alias of the originating note's basename, not the full multi-alias
basename: whenever the origin basename decomposes into aliases
`t :: rest`, the created content is the template with `[[t]]` as its
link-back line. -/
theorem C10_backlink_is_primary_alias (title view_file : String)
    (open_error write_error : String → Bool) (fs : List (String × String))
    (dir ext t : String) (rest : List String)
    (ht : _titles (splitext (pyBasename view_file)).1 = t :: rest)
    (hopen : open_error (_full_path dir (title ++ "." ++ ext)) = false)
    (hwrite : write_error (_full_path dir (title ++ "." ++ ext)) = false) :
    _create_note title view_file true open_error write_error fs dir ext =
      (some (_full_path dir (title ++ "." ++ ext)),
       (_full_path dir (title ++ "." ++ ext),
        "# " ++ title ++ "\n[[" ++ t ++ "]]\n\n") :: fs) := by
  simp [_create_note, hopen, hwrite, _NOTE_TEMPLATE, firstTitle, ht]

/-- Witness for C10: creating `Foo` from the two-alias origin
`/notes/Bar~Baz.md` links back to `[[Bar]]` only (not `Bar~Baz`). -/
theorem C10_witness :
    _create_note "Foo" "/notes/Bar~Baz.md" true (fun _ => false)
      (fun _ => false) ([] : List (String × String)) "/notes" "md" =
      (some "/notes/Foo.md", [("/notes/Foo.md", "# Foo\n[[Bar]]\n\n")]) :=
  C10_backlink_is_primary_alias "Foo" "/notes/Bar~Baz.md" (fun _ => false)
    (fun _ => false) [] "/notes" "md" "Bar" ["Baz"] rfl rfl rfl

/-- C7, counterexample: the claim says empty segments are dropped so
every alias is non-empty; but `_titles` only splits and strips — the
basename `a~~b` yields the alias sequence `["a", "", "b"]`, which
contains the empty string. -/
theorem C7_counterexample :
    ("" ∈ _titles "a~~b") ∧ _titles "a~~b" = ["a", "", "b"] := by
  decide

/-- C7 (amended): `_titles` splits the basename on the fixed separator
and trims each segment of surrounding whitespace, but does NOT drop
empty segments (an alias may be the empty string); consequently every
returned alias is its own stripped form — it carries no surrounding
whitespace. -/
theorem C7_titles_segments_trimmed (name t : String)
    (h : t ∈ _titles name) : pyStrip t = t := by
  simp only [_titles, List.mem_map] at h
  obtain ⟨cs, _, rfl⟩ := h
  show String.mk (stripChars (stripChars cs)) = String.mk (stripChars cs)
  rw [stripChars_idem]

/-- Witness for C7: the alias `A` of basename ` A ~ b ` is stripped. -/
theorem C7_witness :
    pyStrip "A" = "A" ∧ ("A" ∈ _titles " A ~ b ") :=
  ⟨C7_titles_segments_trimmed " A ~ b " "A" (by decide), by decide⟩

/-- C3, counterexample: the claim says the dropped aliases are the set
difference of the LOWERCASED comparison keys, which would make renaming
`A` to `a` a no-op (equal key sets, zero updates, no writes).  The
source takes the difference of the display aliases without lowercasing:
`removed = {"A"}` is nonempty, and — because the link matcher IS
case-insensitive — the corpus file `n.md` containing `see [[A]]` is
rewritten, for an updated count of 1. -/
theorem C3_counterexample :
    pyLower "A" = pyLower "a" ∧
    _update_backlinks "A" "a" readC3 ["n.md"] =
      Except.ok (some 1, [("n.md", "see [[a]]")]) :=
  ⟨rfl, rfl⟩

/-- C3 (amended): rename reconciliation computes the dropped aliases as
the set difference of the stripped DISPLAY aliases of the old name minus
those of the new name, compared case-sensitively (not on lowercased
comparison keys); whenever that set is empty — which covers renames that
only ADD aliases, such as `a` to `a~x` (the `a -> a ~ x  do nothing`
case of the source's own docstring at line 443), and in particular
equal old and new names, for which emptiness is proved below — the
function returns early (Python `None`, embedded `none`, rather than a
zero count) having written no files. -/
theorem C3_removed_display_set_diff (old_name new_name : String)
    (read : String → Except PyExc String) (filenames : List String) :
    (∀ t, t ∈ removedTitles old_name new_name ↔
      (t ∈ _titles old_name ∧ t ∉ _titles new_name)) ∧
    (removedTitles old_name new_name = [] →
      _update_backlinks old_name new_name read filenames =
        Except.ok (none, [])) ∧
    (old_name = new_name → removedTitles old_name new_name = []) := by
  refine ⟨?_, ?_, ?_⟩
  · intro t
    simp [removedTitles, List.mem_dedup, List.mem_filter]
  · intro hrem
    rw [_update_backlinks, if_pos hrem]
  · intro h
    subst h
    simp only [removedTitles, List.dedup_eq_nil, List.filter_eq_nil_iff]
    intro t ht
    simp [ht]

/-- Witness for C3: renaming `a` to `a~x` only adds an alias, so the
dropped set is empty and nothing is written; renaming `Foo` to itself
has an empty dropped set by the theorem's last conjunct; and `Bar` is
dropped when renaming `Foo~Bar` to `Foo`. -/
theorem C3_witness :
    removedTitles "a" "a~x" = [] ∧
    (_update_backlinks "a" "a~x"
      (fun _ => Except.error PyExc.unicodeDecodeError) ["x.md"] =
      Except.ok (none, [])) ∧
    removedTitles "Foo" "Foo" = [] ∧
    ("Bar" ∈ removedTitles "Foo~Bar" "Foo" ↔
      ("Bar" ∈ _titles "Foo~Bar" ∧ "Bar" ∉ _titles "Foo")) :=
  ⟨by decide,
   (C3_removed_display_set_diff "a" "a~x"
      (fun _ => Except.error PyExc.unicodeDecodeError) ["x.md"]).2.1 (by decide),
   (C3_removed_display_set_diff "Foo" "Foo"
      (fun _ => Except.error PyExc.unicodeDecodeError) []).2.2 rfl,
   (C3_removed_display_set_diff "Foo~Bar" "Foo"
      (fun _ => Except.error PyExc.unicodeDecodeError) []).1 "Bar"⟩

/-- C4: evaluation of the code at the failing input.  The claim (and the
spec) say a file whose content fails to decode is skipped and the batch
continues.  The source's `except UnicodeEncodeError:` clause (line 469)
does not catch the `UnicodeDecodeError` that `fileobj.read()` raises, so
the whole batch aborts: here `a.md` decodes fine and references the old
name, but the undecodable `b.md` kills the entire reconciliation — no
update count is ever returned. -/
theorem C4_decode_error_aborts_batch :
    _update_backlinks "Old" "New" readC4 ["a.md", "b.md"] =
      Except.error PyExc.unicodeDecodeError :=
  rfl

/-- C9: during rename reconciliation, a candidate file where the matcher
finds zero link-token matches is left untouched (it never appears in the
performed writes); a file with a nonzero replace count is overwritten
with the replaced text; everything written comes from a candidate file
with a nonzero count; and the returned count is exactly the number of
candidate files with a nonzero replace count. -/
theorem C9_update_backlinks_frame (old_name new_name : String)
    (read : String → Except PyExc String) (files : List String)
    (n : Nat) (writes : List (String × String))
    (hnodup : files.Nodup)
    (hok : _update_backlinks old_name new_name read files =
      Except.ok (some n, writes)) :
    (∀ f ∈ files, ∀ text, read f = Except.ok text →
      (pySubn (removedTitles old_name new_name) (replToken new_name) text).2 = 0 →
      writes.find? (fun p => p.1 == f) = none) ∧
    (∀ f ∈ files, ∀ text, read f = Except.ok text →
      (pySubn (removedTitles old_name new_name) (replToken new_name) text).2 ≠ 0 →
      (f, (pySubn (removedTitles old_name new_name) (replToken new_name) text).1)
        ∈ writes) ∧
    (∀ q ∈ writes, q.1 ∈ files ∧ ∃ text, read q.1 = Except.ok text ∧
      (pySubn (removedTitles old_name new_name) (replToken new_name) text).2 ≠ 0 ∧
      q.2 = (pySubn (removedTitles old_name new_name) (replToken new_name) text).1) ∧
    n = (files.filter (fun f =>
      match read f with
      | Except.ok t =>
        (pySubn (removedTitles old_name new_name) (replToken new_name) t).2 != 0
      | Except.error _ => false)).length := by
  rw [_update_backlinks] at hok
  by_cases hrem : removedTitles old_name new_name = []
  · rw [if_pos hrem] at hok
    simp at hok
  · rw [if_neg hrem] at hok
    cases hloop : updateLoop (removedTitles old_name new_name)
        (replToken new_name) files read [] 0 with
    | error e =>
      rw [hloop] at hok
      exact Except.noConfusion hok
    | ok r =>
      rw [hloop] at hok
      simp only [Except.ok.injEq, Prod.mk.injEq, Option.some.injEq] at hok
      obtain ⟨hn, hw⟩ := hok
      subst hw
      obtain ⟨_, hmem, honly, hcount⟩ :=
        updateLoop_spec (removedTitles old_name new_name) (replToken new_name)
          files read [] 0 r.1 r.2 hnodup (by simp) hloop
    -- untouched files, written files, provenance, count
      refine ⟨?_, hmem, ?_, ?_⟩
      · intro f hf text hread hz
        rw [List.find?_eq_none]
        intro q hq
        rcases honly q hq with hq0 | ⟨_, text', hread', hz', _⟩
        · simp at hq0
        · intro hbeq
          have hqf : q.1 = f := by simpa using hbeq
          rw [hqf, hread] at hread'
          cases hread'
          exact hz' hz
      · intro q hq
        rcases honly q hq with hq0 | hgood
        · simp at hq0
        · exact hgood
      · rw [← hn, hcount]
        simp

/-- Witness for C9 on a two-file corpus: `b.md` (zero matches) is
untouched — absent from the writes — while `a.md` is overwritten with
the replaced text, and the count is 1. -/
theorem C9_witness :
    (([("a.md", "see [[New]]")] : List (String × String)).find?
      (fun p => p.1 == "b.md") = none) ∧
    (("a.md", "see [[New]]") ∈
      ([("a.md", "see [[New]]")] : List (String × String))) := by
  have h := C9_update_backlinks_frame "Old" "New" readC9 ["a.md", "b.md"] 1
    [("a.md", "see [[New]]")] (by decide) rfl
  exact ⟨h.1 "b.md" (by decide) "nothing" rfl rfl,
         h.2.1 "a.md" (by decide) "see [[Old]]" rfl (by decide)⟩

/-- C2: theorem about the spec-modelled walk (the source itself raises
`NameError`, see `_find_home_dir`'s doc comment): the home-root
computation walks upward from the note's own directory; a `some` result
is an ancestor-or-self directory that contains the sentinel file, and no
deeper ancestor on the way up contains it; when no ancestor-or-self
(down to the filesystem root) contains the sentinel the result is `None`
and `_find_notes_for_view` falls back to the note's own directory as the
index scope. -/
theorem C2_find_home_dir_walkup (isFile : List String → Bool) (hb : String)
    (curr : List String) :
    (∀ h, _find_home_dir isFile hb curr = some h →
      h <+: curr ∧ isFile (h ++ [hb]) = true ∧
      (∀ p, p <+: curr → h.length < p.length → isFile (p ++ [hb]) = false)) ∧
    ((∀ p, p <+: curr → isFile (p ++ [hb]) = false) →
      _find_home_dir isFile hb curr = none ∧
      _find_notes_for_view_dir isFile hb curr = curr) := by
  constructor
  · intro h hsome
    obtain ⟨rh, hsuf, heq, hfile, hmax⟩ :=
      (findHomeDirRev_spec isFile hb curr.reverse).1 h hsome
    subst heq
    refine ⟨?_, hfile, ?_⟩
    · have h1 := List.reverse_prefix.mpr hsuf
      rwa [List.reverse_reverse] at h1
    · intro p hp hlen
      have hp' : p.reverse <:+ curr.reverse := List.reverse_suffix.mpr hp
      have := hmax p.reverse hp' (by simpa using hlen)
      rwa [List.reverse_reverse] at this
  · intro hyp
    have h2 := (findHomeDirRev_spec isFile hb curr.reverse).2 ?side
    case side =>
      intro rp hrp
      have hpre : rp.reverse <+: curr := by
        have := List.reverse_prefix.mpr hrp
        rwa [List.reverse_reverse] at this
      exact hyp rp.reverse hpre
    refine ⟨h2, ?_⟩
    rw [_find_notes_for_view_dir]
    rw [show _find_home_dir isFile hb curr = none from h2]

/-- Witness for C2: with exactly `/a/README.md` on disk, the walk from
`/a/b` stops at `/a`; with nothing on disk it returns `None` and the
scope falls back to the note's own directory `/a/b`. -/
theorem C2_witness :
    ((["a"] : List String) <+: ["a", "b"]) ∧
    isFileC2 (["a"] ++ ["README.md"]) = true ∧
    _find_home_dir (fun _ => false) "README.md" ["a", "b"] = none ∧
    _find_notes_for_view_dir (fun _ => false) "README.md" ["a", "b"] =
      ["a", "b"] := by
  have h1 := (C2_find_home_dir_walkup isFileC2 "README.md" ["a", "b"]).1
    ["a"] rfl
  have h2 := (C2_find_home_dir_walkup (fun _ => false) "README.md"
    ["a", "b"]).2 (fun p _ => rfl)
  exact ⟨h1.1, h1.2.1, h2.1, h2.2⟩

end Notedown
